import Mathlib

/-!
Verification development for the honeypot intelligence-extraction engine
(src/extraction.py and src/session_manager.py).

The Python regexes are embedded as executable matchers over lists of
characters.  Each matcher implements exactly the semantics of Python
re.findall for its pattern: attempts start at every position from the
left, character-class quantifiers are greedy with backtracking (lengths
are tried longest first), word boundaries and lookarounds consult the
character just before the attempt position and the characters just after
the match.  Inputs are treated as ASCII, which is the domain of every
pattern involved.  Python floats are modelled as exact rationals; the
expression round(total_signals * 0.15, 2) is exact there because
0.15 * n always has exactly two decimal digits, so the rounding is the
identity in the model.
-/

namespace Honeypot

/-! ### Character classes (Python re semantics, ASCII) -/

/-- Python whitespace class backslash-s restricted to ASCII. -/
def isSpaceC (c : Char) : Bool :=
  c = ' ' || c = '\t' || c = '\n' || c = '\r' || c = '\x0b' || c = '\x0c'

/-- The separator class [-.\s] used by the phone patterns. -/
def isSep (c : Char) : Bool := c = '-' || c = '.' || isSpaceC c

/-- Python word-character class backslash-w restricted to ASCII. -/
def isWordChar (c : Char) : Bool := c.isAlphanum || c = '_'

def isWordOpt : Option Char → Bool
  | none => false
  | some c => isWordChar c

def isDigitOpt : Option Char → Bool
  | none => false
  | some c => c.isDigit

/-- Word boundary between two adjacent positions (edge counts as non-word). -/
def boundaryB (a b : Option Char) : Bool := isWordOpt a != isWordOpt b

/-- Python str.lower on a list of characters (ASCII). -/
def lowerL (l : List Char) : List Char := l.map Char.toLower

/-- Python substring containment: pat occurs contiguously inside hay. -/
def containsSub : List Char → List Char → Bool
  | hay, pat =>
    pat.isPrefixOf hay ||
      match hay with
      | [] => false
      | _ :: t => containsSub t pat

/-- Python str.strip (ASCII whitespace). -/
def stripC (l : List Char) : List Char :=
  ((l.dropWhile isSpaceC).reverse.dropWhile isSpaceC).reverse

/-- Python str.split on a single character. -/
def splitOnChar (sep : Char) (l : List Char) : List (List Char) :=
  l.foldr
    (fun c acc =>
      match acc with
      | [] => [[c]]
      | h :: t => if c = sep then [] :: h :: t else (c :: h) :: t)
    [[]]

/-- Length of the maximal prefix of s whose characters satisfy p. -/
def maxRun (p : Char → Bool) : List Char → Nat
  | [] => 0
  | c :: cs => if p c then maxRun p cs + 1 else 0

/-- The list hi, hi-1, ..., lo (empty when hi < lo). -/
def descRange (lo hi : Nat) : List Nat := (List.range' lo (hi + 1 - lo)).reverse

/-- Backtracking candidates for a greedy character-class quantifier with
    multiplicity between lo and hi: the splits (consumed, rest) of s,
    longest consumed first. -/
def splitsDesc (p : Char → Bool) (lo hi : Nat) (s : List Char) :
    List (List Char × List Char) :=
  (descRange lo (min hi (maxRun p s))).map (fun n => (s.take n, s.drop n))

/-- Unbounded greedy quantifier (lo repetitions or more). -/
def splitsDescUnb (p : Char → Bool) (lo : Nat) (s : List Char) :
    List (List Char × List Char) :=
  splitsDesc p lo s.length s

/-- Scan driver with Python findall semantics: try the matcher at every
    position from the left, emit each match and resume after it, tracking
    the character before the current position for boundary/lookbehind
    checks.  The fuel starts at the length of the list and never runs out
    because every step consumes at least one character. -/
def findAllAux (m : Option Char → List Char → Option (List Char)) :
    Nat → Option Char → List Char → List (List Char)
  | 0, _, _ => []
  | _ + 1, _, [] => []
  | fuel + 1, prev, c :: rest =>
    match m prev (c :: rest) with
    | some mt =>
      if mt.length = 0 then findAllAux m fuel (some c) rest
      else mt :: findAllAux m fuel mt.getLast? ((c :: rest).drop mt.length)
    | none => findAllAux m fuel (some c) rest

def findAll (m : Option Char → List Char → Option (List Char)) (s : List Char) :
    List (List Char) :=
  findAllAux m s.length none s

/-! ### Matchers for the phone-number patterns of extract_phone_numbers -/

/-- Pattern +backslash-d{1,3}[-.\s]?backslash-d{4,5}[-.\s]?backslash-d{4,6}
    (international format). -/
def matchPhonePat1 : Option Char → List Char → Option (List Char)
  | _, '+' :: r0 =>
    (splitsDesc Char.isDigit 1 3 r0).findSome? (fun d1 =>
      (splitsDesc isSep 0 1 d1.2).findSome? (fun s1 =>
        (splitsDesc Char.isDigit 4 5 s1.2).findSome? (fun d2 =>
          (splitsDesc isSep 0 1 d2.2).findSome? (fun s2 =>
            (splitsDesc Char.isDigit 4 6 s2.2).findSome? (fun d3 =>
              some ('+' :: (d1.1 ++ s1.1 ++ d2.1 ++ s2.1 ++ d3.1)))))))
  | _, _ => none

/-- Pattern +backslash-d{1,3}[-.\s]?backslash-d{10} (country code then 10 digits). -/
def matchPhonePat2 : Option Char → List Char → Option (List Char)
  | _, '+' :: r0 =>
    (splitsDesc Char.isDigit 1 3 r0).findSome? (fun d1 =>
      (splitsDesc isSep 0 1 d1.2).findSome? (fun s1 =>
        (splitsDesc Char.isDigit 10 10 s1.2).findSome? (fun d2 =>
          some ('+' :: (d1.1 ++ s1.1 ++ d2.1)))))
  | _, _ => none

/-- Pattern backslash-b 0 backslash-d{10} backslash-b (landline with 0 prefix). -/
def matchPhonePat3 (prev : Option Char) (s : List Char) : Option (List Char) :=
  if isWordOpt prev then none
  else
    match s with
    | '0' :: r =>
      (splitsDesc Char.isDigit 10 10 r).findSome? (fun d =>
        if isWordOpt d.2.head? then none else some ('0' :: d.1))
    | _ => none

/-- Pattern (?<!backslash-d) backslash-d{10} (?!backslash-d) (bare 10-digit mobile). -/
def matchPhonePat4 (prev : Option Char) (s : List Char) : Option (List Char) :=
  if isDigitOpt prev then none
  else
    (splitsDesc Char.isDigit 10 10 s).findSome? (fun d =>
      if isDigitOpt d.2.head? then none else some d.1)

/-! ### Matchers for the UPI / email / bank-account patterns -/

/-- Class [a-zA-Z0-9._-] of the UPI local part. -/
def isUpiLocal (c : Char) : Bool := c.isAlphanum || c = '.' || c = '_' || c = '-'

/-- Class [a-zA-Z0-9.-] of the UPI and email domain parts. -/
def isDomainChar (c : Char) : Bool := c.isAlphanum || c = '.' || c = '-'

/-- Class [A-Za-z0-9._%+-] of the email local part. -/
def isEmailLocal (c : Char) : Bool :=
  c.isAlphanum || c = '.' || c = '_' || c = '%' || c = '+' || c = '-'

/-- Pattern backslash-b([a-zA-Z0-9._-]{2,}@[a-zA-Z0-9.-]+)backslash-b of extract_upi_ids. -/
def matchUpi (prev : Option Char) (s : List Char) : Option (List Char) :=
  if boundaryB prev s.head? = false then none
  else
    (splitsDescUnb isUpiLocal 2 s).findSome? (fun loc =>
      match loc.2 with
      | '@' :: r2 =>
        (splitsDescUnb isDomainChar 1 r2).findSome? (fun dom =>
          if boundaryB dom.1.getLast? dom.2.head? then some (loc.1 ++ '@' :: dom.1)
          else none)
      | _ => none)

/-- Pattern backslash-b([A-Za-z0-9._%+-]+@[A-Za-z0-9.-]+.[A-Za-z]{2,})backslash-b
    of extract_email_addresses (the dot before the final letters is literal). -/
def matchEmail (prev : Option Char) (s : List Char) : Option (List Char) :=
  if boundaryB prev s.head? = false then none
  else
    (splitsDescUnb isEmailLocal 1 s).findSome? (fun loc =>
      match loc.2 with
      | '@' :: r2 =>
        (splitsDescUnb isDomainChar 1 r2).findSome? (fun dom =>
          match dom.2 with
          | '.' :: r3 =>
            (splitsDescUnb Char.isAlpha 2 r3).findSome? (fun tld =>
              if boundaryB tld.1.getLast? tld.2.head? then
                some (loc.1 ++ '@' :: (dom.1 ++ '.' :: tld.1))
              else none)
          | _ => none)
      | _ => none)

/-- Pattern (?<![+backslash-d.]) backslash-b (backslash-d{9,18}) backslash-b
    (?!.backslash-d) of extract_bank_accounts.  The first character of any
    match is a digit, so the leading boundary amounts to the previous
    character not being a word character; together with the lookbehind the
    previous character may not be +, dot, or any word character. -/
def badBankPrev : Option Char → Bool
  | none => false
  | some c => c = '+' || c = '.' || isWordChar c

def matchBank (prev : Option Char) (s : List Char) : Option (List Char) :=
  if badBankPrev prev then none
  else
    (splitsDesc Char.isDigit 9 18 s).findSome? (fun d =>
      if isWordOpt d.2.head? then none
      else
        match d.2 with
        | '.' :: c2 :: _ => if c2.isDigit then none else some d.1
        | _ => some d.1)

/-! ### Matchers for links and case ids -/

/-- Class [^backslash-s<>"'] of the link body. -/
def isLinkChar (c : Char) : Bool :=
  !(isSpaceC c || c = '<' || c = '>' || c = '"' || c = '\'')

/-- Pattern https?://[^backslash-s<>"']+ . -/
def matchHttp : Option Char → List Char → Option (List Char) := fun _ s =>
  match s with
  | 'h' :: 't' :: 't' :: 'p' :: r =>
    let tail := fun (pre : List Char) (r2 : List Char) =>
      match r2 with
      | ':' :: '/' :: '/' :: r3 =>
        let n := maxRun isLinkChar r3
        if n = 0 then none else some (pre ++ ':' :: '/' :: '/' :: r3.take n)
      | _ => none
    match r with
    | 's' :: r1 =>
      match tail ['h', 't', 't', 'p', 's'] r1 with
      | some mt => some mt
      | none => tail ['h', 't', 't', 'p'] r
    | _ => tail ['h', 't', 't', 'p'] r
  | _ => none

/-- Pattern www.[^backslash-s<>"']+ (the dot is literal). -/
def matchWww : Option Char → List Char → Option (List Char) := fun _ s =>
  match s with
  | 'w' :: 'w' :: 'w' :: '.' :: r =>
    let n := maxRun isLinkChar r
    if n = 0 then none else some ('w' :: 'w' :: 'w' :: '.' :: r.take n)
  | _ => none

/-- Trailing punctuation stripped from links, Python rstrip with set .,;:!?) -/
def isTrailPunct (c : Char) : Bool :=
  c = '.' || c = ',' || c = ';' || c = ':' || c = '!' || c = '?' || c = ')'

def rstripPunct (l : List Char) : List Char :=
  (l.reverse.dropWhile isTrailPunct).reverse

/-- Class [:#\s] separating a case keyword from its body. -/
def isCaseSep (c : Char) : Bool := c = ':' || c = '#' || isSpaceC c

/-- Class [A-Z0-9-] of a case-id body. -/
def isCaseBody (c : Char) : Bool := c.isUpper || c.isDigit || c = '-'

/-- Pattern backslash-b([A-Z]{2,5}-backslash-d{3,10})backslash-b . -/
def matchCaseA (prev : Option Char) (s : List Char) : Option (List Char) :=
  if isWordOpt prev then none
  else
    (splitsDesc Char.isUpper 2 5 s).findSome? (fun ls =>
      match ls.2 with
      | '-' :: r2 =>
        (splitsDesc Char.isDigit 3 10 r2).findSome? (fun ds =>
          if isWordOpt ds.2.head? then none else some (ls.1 ++ '-' :: ds.1))
      | _ => none)

/-- Pattern backslash-b([A-Z]{2,5}backslash-d{4,10})backslash-b . -/
def matchCaseB (prev : Option Char) (s : List Char) : Option (List Char) :=
  if isWordOpt prev then none
  else
    (splitsDesc Char.isUpper 2 5 s).findSome? (fun ls =>
      (splitsDesc Char.isDigit 4 10 ls.2).findSome? (fun ds =>
        if isWordOpt ds.2.head? then none else some (ls.1 ++ ds.1)))

def caseKeywords : List (List Char) :=
  ["CASE".data, "REF".data, "TXN".data, "ORDER".data, "POLICY".data, "TKT".data]

/-- Pattern backslash-b((?:CASE|REF|TXN|ORDER|POLICY|TKT)[:#\s]+[A-Z0-9-]{4,15})backslash-b . -/
def matchCaseC (prev : Option Char) (s : List Char) : Option (List Char) :=
  if isWordOpt prev then none
  else
    caseKeywords.findSome? (fun kw =>
      if kw.isPrefixOf s then
        (splitsDescUnb isCaseSep 1 (s.drop kw.length)).findSome? (fun sep =>
          (splitsDesc isCaseBody 4 15 sep.2).findSome? (fun body =>
            if boundaryB body.1.getLast? body.2.head? then
              some (kw ++ sep.1 ++ body.1)
            else none))
      else none)

/-- Pattern backslash-b(backslash-d{3,5}/[A-Z]{2,5}/backslash-d{3,5})backslash-b . -/
def matchCaseD (prev : Option Char) (s : List Char) : Option (List Char) :=
  if isWordOpt prev then none
  else
    (splitsDesc Char.isDigit 3 5 s).findSome? (fun d1 =>
      match d1.2 with
      | '/' :: r2 =>
        (splitsDesc Char.isUpper 2 5 r2).findSome? (fun ls =>
          match ls.2 with
          | '/' :: r3 =>
            (splitsDesc Char.isDigit 3 5 r3).findSome? (fun d2 =>
              if isWordOpt d2.2.head? then none
              else some (d1.1 ++ '/' :: (ls.1 ++ '/' :: d2.1)))
          | _ => none)
      | _ => none)

/-! ### The six extractors of extraction.py -/

def EMAIL_DOMAINS : List String :=
  ["gmail", "yahoo", "hotmail", "outlook", "protonmail", "icloud",
   "aol", "mail", "zoho", "yandex", "live", "msn", "rediffmail",
   "gmx", "inbox", "fastmail", "tutanota", "pm", "hey"]

def UPI_PROVIDERS : List String :=
  ["upi", "okhdfcbank", "okicici", "oksbi", "okaxis", "paytm",
   "ybl", "ibl", "apl", "axl", "fbl", "ikwik", "abfspay",
   "axisbank", "sbi", "hdfcbank", "icici", "kotak", "indus",
   "boi", "pnb", "canara", "unionbank", "rbl", "federal",
   "dbs", "hsbc", "sc", "citi", "idbi", "bob", "ubi"]

/-- Digit-only form, Python re.sub of non-digits by the empty string. -/
def digitsOfL (l : List Char) : List Char := l.filter Char.isDigit

def extract_phone_numbers (text : String) : List String :=
  if text = "" then []
  else
    let s := text.data
    let results :=
      findAll matchPhonePat1 s ++ findAll matchPhonePat2 s ++
        findAll matchPhonePat3 s ++ findAll matchPhonePat4 s
    let cleaned :=
      results.filterMap (fun num =>
        let nm := stripC num
        if 10 ≤ (digitsOfL nm).length then some (String.mk nm) else none)
    cleaned.dedup

/-- Test for re.search of a dotted TLD anchored at the end of the domain:
    the domain ends in a dot followed by at least two letters. -/
def hasTld (domain : List Char) : Bool :=
  let rev := domain.reverse
  let k := maxRun Char.isAlpha rev
  decide (2 ≤ k) && ((rev.drop k).head? == some '.')

def extract_upi_ids (text : String) : List String :=
  if text = "" then []
  else
    let found := findAll matchUpi text.data
    let upiIds :=
      found.filterMap (fun mt =>
        match splitOnChar '@' mt with
        | [_, domPart] =>
          let domain := lowerL domPart
          let isUpi := UPI_PROVIDERS.any (fun p => containsSub domain p.data)
          let domainBase := domain.takeWhile (fun c => !(c = '.'))
          if isUpi then some (String.mk mt)
          else if !hasTld domain &&
              !(EMAIL_DOMAINS.any (fun d => d.data == domainBase)) then
            some (String.mk mt)
          else none
        | _ => none)
    upiIds.dedup

def extract_email_addresses (text : String) : List String :=
  if text = "" then []
  else
    let found := (findAll matchEmail text.data).map String.mk
    let upiIds := extract_upi_ids text
    (found.filter (fun m => decide (m ∉ upiIds))).dedup

/-- First character of a 10-digit run that marks it as a mobile number. -/
def mobileStart : List Char → Bool
  | c :: _ => c = '6' || c = '7' || c = '8' || c = '9'
  | [] => false

def extract_bank_accounts (text : String) : List String :=
  if text = "" then []
  else
    let phoneDigits := (extract_phone_numbers text).map (fun p => digitsOfL p.data)
    let found := findAll matchBank text.data
    let accounts :=
      found.filter (fun mt =>
        !(decide (mt ∈ phoneDigits) || phoneDigits.any (fun p => containsSub p mt)) &&
          !(decide (mt.length = 10) && mobileStart mt))
    (accounts.map String.mk).dedup

def extract_phishing_links (text : String) : List String :=
  if text = "" then []
  else
    let results := findAll matchHttp text.data ++ findAll matchWww text.data
    (results.map (fun l => String.mk (rstripPunct l))).dedup

def extract_case_ids (text : String) : List String :=
  if text = "" then []
  else
    let results :=
      findAll matchCaseA text.data ++ findAll matchCaseB text.data ++
        findAll matchCaseC text.data ++ findAll matchCaseD text.data
    let uniq := (results.map stripC).dedup
    (uniq.filter (fun m =>
        decide (5 ≤ m.length) && m.any Char.isAlpha && m.any Char.isDigit)).map
      String.mk

/-! ### Intelligence records and merging -/

/-- The fixed six-key intelligence record, lists of unique strings.
    Python stores lists; claims compare the lists as sets. -/
structure Intelligence where
  phoneNumbers : List String
  bankAccounts : List String
  upiIds : List String
  phishingLinks : List String
  emailAddresses : List String
  caseIds : List String
deriving DecidableEq

def emptyIntelligence : Intelligence := ⟨[], [], [], [], [], []⟩

def extract_all_intelligence (text : String) : Intelligence :=
  { phoneNumbers := extract_phone_numbers text
    bankAccounts := extract_bank_accounts text
    upiIds := extract_upi_ids text
    phishingLinks := extract_phishing_links text
    emailAddresses := extract_email_addresses text
    caseIds := extract_case_ids text }

/-- Python merges each key with list(set(a) | set(b)); the element set of
    the result is the union, modelled as deduplicated concatenation. -/
def mergeVals (a b : List String) : List String := (a ++ b).dedup

def merge_intelligence (a b : Intelligence) : Intelligence :=
  { phoneNumbers := mergeVals a.phoneNumbers b.phoneNumbers
    bankAccounts := mergeVals a.bankAccounts b.bankAccounts
    upiIds := mergeVals a.upiIds b.upiIds
    phishingLinks := mergeVals a.phishingLinks b.phishingLinks
    emailAddresses := mergeVals a.emailAddresses b.emailAddresses
    caseIds := mergeVals a.caseIds b.caseIds }

/-- A conversation-history entry; sender or text may be absent, in which
    case dict.get supplies the empty-string default. -/
structure Msg where
  sender : Option String
  text : Option String

def Msg.getSender (m : Msg) : String := m.sender.getD ""

def Msg.getText (m : Msg) : String := m.text.getD ""

def extract_from_conversation_history (history : List Msg) : Intelligence :=
  history.foldl
    (fun combined msg =>
      if msg.getSender = "scammer" then
        merge_intelligence combined (extract_all_intelligence msg.getText)
      else combined)
    emptyIntelligence

/-! ### Session state and the scam classifier tables -/

def SCAM_PATTERNS : List (String × List String) :=
  [("bank_fraud",
    ["bank", "account compromised", "suspicious transaction", "fraud department",
     "sbi", "hdfc", "icici", "axis", "pnb", "rbi", "reserve bank",
     "account blocked", "account suspended", "debit card", "credit card"]),
   ("upi_fraud",
    ["upi", "paytm", "gpay", "google pay", "phonepe", "cashback",
     "payment pending", "collect request", "upi pin", "refund",
     "money transfer", "bhim"]),
   ("phishing",
    ["click", "link", "verify", "update kyc", "kyc expired",
     "offer", "prize", "winner", "congratulations", "claim",
     "lottery", "reward", "coupon", "deal", "free"]),
   ("tech_support",
    ["computer", "virus", "malware", "microsoft", "windows",
     "remote access", "anydesk", "teamviewer", "tech support",
     "software", "license"]),
   ("insurance_fraud",
    ["insurance", "policy", "premium", "maturity", "claim settlement",
     "lic", "policy lapsed", "bonus", "endowment"]),
   ("delivery_fraud",
    ["delivery", "package", "courier", "shipment", "order",
     "customs", "parcel", "tracking", "amazon", "flipkart"])]

def RED_FLAGS : List String :=
  ["urgent", "immediately", "otp", "verify", "expir", "blocked",
   "suspended", "warn", "penalty", "legal action", "arrest",
   "police", "court", "freeze", "deadline", "last chance",
   "act now", "right away", "don't delay", "hurry", "emergency",
   "fine", "fee", "charge", "pay now", "transfer", "time sensitive"]

def scam_keywords : List String :=
  ["otp", "verify", "urgent", "blocked", "suspended", "kyc",
   "fraud", "security", "transaction", "click", "link",
   "immediately", "expired", "penalty", "legal", "arrest",
   "fee", "charge", "transfer", "pin", "password", "cvv"]

/-- A session record.  startTime is an abstract timestamp modelled as Nat;
    confidenceLevel is a Python float modelled as an exact rational;
    usedResponses is a Python set modelled as a duplicate-free list. -/
structure Session where
  startTime : Nat
  scamDetected : Bool
  callbackSent : Bool
  totalMessagesExchanged : Nat
  intelligence : Intelligence
  scamType : String
  confidenceLevel : ℚ
  redFlagsFound : List String
  questionsAsked : Nat
  usedResponses : List String
  allScammerTexts : List String
  historyProcessed : Bool

def initialSession (now : Nat) : Session :=
  { startTime := now
    scamDetected := false
    callbackSent := false
    totalMessagesExchanged := 0
    intelligence := emptyIntelligence
    scamType := "unknown"
    confidenceLevel := 0
    redFlagsFound := []
    questionsAsked := 0
    usedResponses := []
    allScammerTexts := []
    historyProcessed := false }

/-- Number of scam keywords contained in the lowercased text (each keyword
    counted once, matching the per-keyword loop in update_session). -/
def sigCount (t : String) : Nat :=
  (scam_keywords.filter (fun k => containsSub (lowerL t.data) k.data)).length

/-- Red-flag pass of update_session: append each listed flag contained in
    the lowercased text and not already recorded, in list order. -/
def addRedFlags (flags : List String) (textLower : List Char) : List String :=
  RED_FLAGS.foldl
    (fun acc flag =>
      if containsSub textLower flag.data && decide (flag ∉ acc) then acc ++ [flag]
      else acc)
    flags

/-- Scam-type selection: iterate the pattern table in order, count pattern
    substrings present, keep the strictly best score, default unknown. -/
def bestScamType (allText : List Char) : String :=
  (SCAM_PATTERNS.foldl
      (fun best p =>
        let score := (p.2.filter (fun pat => containsSub allText pat.data)).length
        if best.2 < score then (p.1, score) else best)
      ("unknown", 0)).1

def countChar (c : Char) (s : String) : Nat := (s.data.filter (fun x => x = c)).length

/-- The body of update_session: the per-session state transition performed
    under the store lock, step for step in source order. -/
def update_session_core (session : Session) (text : String) (history : List Msg)
    (reply : String) : Session :=
  let s1 :=
    if !session.historyProcessed && !history.isEmpty then
      { session with
        intelligence :=
          merge_intelligence session.intelligence
            (extract_from_conversation_history history)
        redFlagsFound :=
          history.foldl
            (fun acc msg =>
              if msg.getSender = "scammer" then
                addRedFlags acc (lowerL msg.getText.data)
              else acc)
            session.redFlagsFound
        historyProcessed := true }
    else session
  let s2 := { s1 with allScammerTexts := s1.allScammerTexts ++ [text] }
  let s3 :=
    { s2 with
      intelligence := merge_intelligence s2.intelligence (extract_all_intelligence text) }
  let s4 := { s3 with totalMessagesExchanged := history.length + 2 }
  let scamSignals := sigCount text
  let s5 := if 0 < scamSignals then { s4 with scamDetected := true } else s4
  let allText := lowerL (String.intercalate " " s5.allScammerTexts).data
  let s6 := { s5 with scamType := bestScamType allText }
  let totalSignals := scamSignals + (s6.allScammerTexts.dropLast.map sigCount).sum
  let s7 := { s6 with confidenceLevel := min 1 (((totalSignals : ℚ) * 15) / 100) }
  let s8 := { s7 with redFlagsFound := addRedFlags s7.redFlagsFound (lowerL text.data) }
  let s9 :=
    if containsSub reply.data ['?'] then
      { s8 with questionsAsked := s8.questionsAsked + countChar '?' reply }
    else s8
  { s9 with
    usedResponses :=
      if reply ∈ s9.usedResponses then s9.usedResponses
      else s9.usedResponses ++ [reply] }

/-! ### The session store and its operations -/

/-- The module-level session dict, modelled as a keyed finite map, one entry per id. -/
abbrev Store := String → Option Session

def emptyStore : Store := fun _ => none

def get_or_create_session (store : Store) (id : String) (now : Nat) :
    Session × Store :=
  match store id with
  | some s => (s, store)
  | none =>
    let s := initialSession now
    (s, fun x => if x = id then some s else store x)

def update_session (store : Store) (id : String) (now : Nat) (text : String)
    (history : List Msg) (reply : String) : Session × Store :=
  let p := get_or_create_session store id now
  let s := update_session_core p.1 text history reply
  (s, fun x => if x = id then some s else p.2 x)

def get_session (store : Store) (id : String) : Option Session := store id

/-- The externally visible report payload. -/
structure Report where
  sessionId : String
  scamDetected : Bool
  scamType : String
  confidenceLevel : ℚ
  totalMessagesExchanged : Nat
  engagementDurationSeconds : Nat
  extractedIntelligence : Intelligence
  agentNotes : String

def build_final_output (store : Store) (id : String) (now : Nat) :
    Report × Store :=
  let p := get_or_create_session store id now
  let s := p.1
  let duration := now - s.startTime
  let redFlagsStr :=
    if s.redFlagsFound.isEmpty then "suspicious behavior"
    else String.intercalate ", " (s.redFlagsFound.take 10)
  let agentNotes :=
    "Scam type detected: " ++ s.scamType ++ ". Red flags identified: " ++
      redFlagsStr ++
      ". Scammer used social engineering tactics including urgency, impersonation, and verification pressure. Total questions asked: " ++
      toString s.questionsAsked ++ ". Intelligence extracted across " ++
      toString s.totalMessagesExchanged ++ " messages."
  let isScam := s.scamDetected
  ({ sessionId := id
     scamDetected := isScam
     scamType := if isScam then s.scamType else "none"
     confidenceLevel := if isScam then max s.confidenceLevel (75 / 100) else 0
     totalMessagesExchanged := s.totalMessagesExchanged
     engagementDurationSeconds := max duration 1
     extractedIntelligence := s.intelligence
     agentNotes := agentNotes },
   p.2)

/-- One update_session invocation as data, for stating properties of call
    sequences against the store. -/
structure UpdateCall where
  id : String
  now : Nat
  text : String
  history : List Msg
  reply : String

def applyCall (store : Store) (c : UpdateCall) : Store :=
  (update_session store c.id c.now c.text c.history c.reply).2

def applyCalls (store : Store) (calls : List UpdateCall) : Store :=
  calls.foldl applyCall store

/-- Category projection used to state the per-key claims uniformly. -/
def Intelligence.get (i : Intelligence) : Fin 6 → List String
  | ⟨0, _⟩ => i.phoneNumbers
  | ⟨1, _⟩ => i.bankAccounts
  | ⟨2, _⟩ => i.upiIds
  | ⟨3, _⟩ => i.phishingLinks
  | ⟨4, _⟩ => i.emailAddresses
  | ⟨5, _⟩ => i.caseIds
  | ⟨n + 6, h⟩ => absurd h (by omega)

/-- Key-by-key comparison of intelligence records as sets. -/
def IntelEq (a b : Intelligence) : Prop :=
  ∀ k : Fin 6, (a.get k).toFinset = (b.get k).toFinset

/-- Intelligence categories of the session stored under an id (empty when
    the session does not exist yet). -/
def sessionCat (store : Store) (id : String) (k : Fin 6) : List String :=
  ((store id).map (fun s => s.intelligence.get k)).getD []

def sessionDetected (store : Store) (id : String) : Bool :=
  ((store id).map Session.scamDetected).getD false

def sessionConf (store : Store) (id : String) : ℚ :=
  ((store id).map Session.confidenceLevel).getD 0

/-- Cumulative confidence formula of update_session: the signal count of
    every accumulated scammer text, scaled by 0.15 and capped at 1. -/
def confFormula (texts : List String) : ℚ :=
  min 1 ((((texts.map sigCount).sum : ℚ) * 15) / 100)

/-! ### Helper lemmas about runs, splits and the scan driver -/

theorem maxRun_le_length (p : Char → Bool) : ∀ s : List Char, maxRun p s ≤ s.length
  | [] => Nat.le_refl 0
  | c :: cs => by
    simp only [maxRun, List.length_cons]
    split
    · exact Nat.succ_le_succ (maxRun_le_length p cs)
    · exact Nat.zero_le _

theorem mem_take_of_le_maxRun {p : Char → Bool} :
    ∀ (s : List Char) (n : Nat), n ≤ maxRun p s → ∀ c ∈ s.take n, p c = true
  | [], _, _, c, hc => by simp at hc
  | _ :: _, 0, _, c, hc => by simp at hc
  | a :: s, n + 1, h, c, hc => by
    simp only [maxRun] at h
    cases hpa : p a with
    | false => rw [hpa] at h; simp at h
    | true =>
      rw [hpa] at h
      simp only [if_true] at h
      simp only [List.take_succ_cons, List.mem_cons] at hc
      rcases hc with rfl | hc
      · exact hpa
      · exact mem_take_of_le_maxRun s n (Nat.le_of_succ_le_succ h) c hc

theorem splitsDesc_spec {p : Char → Bool} {lo hi : Nat} {s : List Char}
    {ab : List Char × List Char} (h : ab ∈ splitsDesc p lo hi s) :
    s = ab.1 ++ ab.2 ∧ lo ≤ ab.1.length ∧ ab.1.length ≤ hi ∧
      ∀ c ∈ ab.1, p c = true := by
  unfold splitsDesc descRange at h
  rw [List.mem_map] at h
  obtain ⟨n, hn, rfl⟩ := h
  rw [List.mem_reverse, List.mem_range'] at hn
  obtain ⟨i, hilt, rfl⟩ := hn
  have hle : lo + 1 * i ≤ min hi (maxRun p s) := by omega
  have hrun : lo + 1 * i ≤ maxRun p s := le_trans hle (Nat.min_le_right _ _)
  have hlen : lo + 1 * i ≤ s.length := le_trans hrun (maxRun_le_length p s)
  have htk : (s.take (lo + 1 * i)).length = lo + 1 * i := by
    rw [List.length_take]; exact Nat.min_eq_left hlen
  refine ⟨(List.take_append_drop _ s).symm, ?_, ?_, ?_⟩
  · rw [htk]; omega
  · rw [htk]; exact le_trans hle (Nat.min_le_left _ _)
  · exact mem_take_of_le_maxRun s _ hrun

theorem mem_findAllAux {m : Option Char → List Char → Option (List Char)} :
    ∀ {fuel : Nat} {prev : Option Char} {s mt : List Char},
      mt ∈ findAllAux m fuel prev s → ∃ p' s', m p' s' = some mt
  | 0, _, _, _, h => by simp [findAllAux] at h
  | _ + 1, _, [], _, h => by simp [findAllAux] at h
  | fuel + 1, prev, c :: rest, mt, h => by
    simp only [findAllAux] at h
    cases hm : m prev (c :: rest) with
    | none => rw [hm] at h; exact mem_findAllAux h
    | some x =>
      rw [hm] at h
      have h' :
          mt ∈
            if x.length = 0 then findAllAux m fuel (some c) rest
            else x :: findAllAux m fuel x.getLast? ((c :: rest).drop x.length) := h
      by_cases hx : x.length = 0
      · rw [if_pos hx] at h'; exact mem_findAllAux h'
      · rw [if_neg hx] at h'
        rcases List.mem_cons.mp h' with h2 | h2
        · exact ⟨prev, c :: rest, by rw [hm, h2]⟩
        · exact mem_findAllAux h2

theorem findAll_mem {m : Option Char → List Char → Option (List Char)}
    {s mt : List Char} (h : mt ∈ findAll m s) : ∃ p' s', m p' s' = some mt :=
  mem_findAllAux h

theorem stripC_sublist (l : List Char) : List.Sublist (stripC l) l := by
  have h1 :
      List.Sublist ((l.dropWhile isSpaceC).reverse.dropWhile isSpaceC)
        (l.dropWhile isSpaceC).reverse :=
    List.dropWhile_sublist isSpaceC
  have h2 := List.reverse_sublist.mpr h1
  rw [List.reverse_reverse] at h2
  exact h2.trans (List.dropWhile_sublist isSpaceC)

theorem isSep_not_digit {c : Char} (h : isSep c = true) : c.isDigit = false := by
  simp only [isSep, isSpaceC, Bool.or_eq_true, decide_eq_true_eq, or_assoc] at h
  rcases h with rfl | rfl | rfl | rfl | rfl | rfl | rfl | rfl <;> rfl

theorem digitsOfL_of_digits {l : List Char} (h : ∀ c ∈ l, Char.isDigit c = true) :
    digitsOfL l = l :=
  List.filter_eq_self.mpr h

theorem digitsOfL_of_seps {l : List Char} (h : ∀ c ∈ l, isSep c = true) :
    digitsOfL l = [] :=
  List.filter_eq_nil_iff.mpr (fun c hc => by simp [isSep_not_digit (h c hc)])

theorem digitsOfL_cons_plus (l : List Char) : digitsOfL ('+' :: l) = digitsOfL l := rfl

theorem digitsOfL_cons_zero (l : List Char) :
    digitsOfL ('0' :: l) = '0' :: digitsOfL l := rfl

/-! ### Digit-count bounds for the phone matchers (claim C4) -/

theorem matchPhonePat1_digits {prev : Option Char} {s mt : List Char}
    (h : matchPhonePat1 prev s = some mt) : (digitsOfL mt).length ≤ 14 := by
  rw [matchPhonePat1.eq_def] at h
  split at h
  · obtain ⟨d1, hd1, h⟩ := List.exists_of_findSome?_eq_some h
    obtain ⟨s1, hs1, h⟩ := List.exists_of_findSome?_eq_some h
    obtain ⟨d2, hd2, h⟩ := List.exists_of_findSome?_eq_some h
    obtain ⟨s2, hs2, h⟩ := List.exists_of_findSome?_eq_some h
    obtain ⟨d3, hd3, h⟩ := List.exists_of_findSome?_eq_some h
    obtain ⟨-, -, hhi1, hp1⟩ := splitsDesc_spec hd1
    obtain ⟨-, -, -, hps1⟩ := splitsDesc_spec hs1
    obtain ⟨-, -, hhi2, hp2⟩ := splitsDesc_spec hd2
    obtain ⟨-, -, -, hps2⟩ := splitsDesc_spec hs2
    obtain ⟨-, -, hhi3, hp3⟩ := splitsDesc_spec hd3
    obtain rfl : ('+' :: (d1.1 ++ s1.1 ++ d2.1 ++ s2.1 ++ d3.1)) = mt :=
      Option.some.inj h
    rw [digitsOfL_cons_plus]
    simp only [digitsOfL, List.filter_append]
    rw [List.filter_eq_self.mpr hp1, List.filter_eq_self.mpr hp2,
      List.filter_eq_self.mpr hp3,
      List.filter_eq_nil_iff.mpr (fun c hc => by simp [isSep_not_digit (hps1 c hc)]),
      List.filter_eq_nil_iff.mpr (fun c hc => by simp [isSep_not_digit (hps2 c hc)])]
    simp only [List.length_append, List.length_nil]
    omega
  · exact Option.noConfusion h

theorem matchPhonePat2_digits {prev : Option Char} {s mt : List Char}
    (h : matchPhonePat2 prev s = some mt) : (digitsOfL mt).length ≤ 14 := by
  rw [matchPhonePat2.eq_def] at h
  split at h
  · obtain ⟨d1, hd1, h⟩ := List.exists_of_findSome?_eq_some h
    obtain ⟨s1, hs1, h⟩ := List.exists_of_findSome?_eq_some h
    obtain ⟨d2, hd2, h⟩ := List.exists_of_findSome?_eq_some h
    obtain ⟨-, -, hhi1, hp1⟩ := splitsDesc_spec hd1
    obtain ⟨-, -, -, hps1⟩ := splitsDesc_spec hs1
    obtain ⟨-, -, hhi2, hp2⟩ := splitsDesc_spec hd2
    obtain rfl : ('+' :: (d1.1 ++ s1.1 ++ d2.1)) = mt := Option.some.inj h
    rw [digitsOfL_cons_plus]
    simp only [digitsOfL, List.filter_append]
    rw [List.filter_eq_self.mpr hp1, List.filter_eq_self.mpr hp2,
      List.filter_eq_nil_iff.mpr (fun c hc => by simp [isSep_not_digit (hps1 c hc)])]
    simp only [List.length_append, List.length_nil]
    omega
  · exact Option.noConfusion h

theorem matchPhonePat3_digits {prev : Option Char} {s mt : List Char}
    (h : matchPhonePat3 prev s = some mt) : (digitsOfL mt).length ≤ 14 := by
  unfold matchPhonePat3 at h
  split at h
  · exact Option.noConfusion h
  · split at h
    · obtain ⟨d, hd, h⟩ := List.exists_of_findSome?_eq_some h
      obtain ⟨-, -, hhi, hp⟩ := splitsDesc_spec hd
      split at h
      · exact Option.noConfusion h
      · obtain rfl : ('0' :: d.1) = mt := Option.some.inj h
        rw [digitsOfL_cons_zero, List.length_cons, digitsOfL_of_digits hp]
        omega
    · exact Option.noConfusion h

theorem matchPhonePat4_digits {prev : Option Char} {s mt : List Char}
    (h : matchPhonePat4 prev s = some mt) : (digitsOfL mt).length ≤ 14 := by
  unfold matchPhonePat4 at h
  split at h
  · exact Option.noConfusion h
  · obtain ⟨d, hd, h⟩ := List.exists_of_findSome?_eq_some h
    obtain ⟨-, -, hhi, hp⟩ := splitsDesc_spec hd
    split at h
    · exact Option.noConfusion h
    · obtain rfl : d.1 = mt := Option.some.inj h
      rw [digitsOfL_of_digits hp]
      omega

/-! ### Shape of bank-account matches (claim C5) -/

theorem matchBank_spec {prev : Option Char} {s mt : List Char}
    (h : matchBank prev s = some mt) :
    9 ≤ mt.length ∧ mt.length ≤ 18 ∧ ∀ c ∈ mt, c.isDigit = true := by
  unfold matchBank at h
  split at h
  · exact Option.noConfusion h
  · obtain ⟨d, hd, h⟩ := List.exists_of_findSome?_eq_some h
    obtain ⟨-, hlo, hhi, hp⟩ := splitsDesc_spec hd
    split at h
    · exact Option.noConfusion h
    · split at h
      · split at h
        · exact Option.noConfusion h
        · obtain rfl : d.1 = mt := Option.some.inj h
          exact ⟨hlo, hhi, hp⟩
      · obtain rfl : d.1 = mt := Option.some.inj h
        exact ⟨hlo, hhi, hp⟩

/-! ### Merge lemmas -/

theorem mergeVals_toFinset (a b : List String) :
    (mergeVals a b).toFinset = a.toFinset ∪ b.toFinset := by
  ext x
  simp [mergeVals, List.mem_dedup]

theorem emptyIntelligence_get (k : Fin 6) : emptyIntelligence.get k = [] := by
  fin_cases k <;> rfl

theorem merge_intelligence_get (a b : Intelligence) (k : Fin 6) :
    (merge_intelligence a b).get k = mergeVals (a.get k) (b.get k) := by
  fin_cases k <;> rfl

theorem merge_intelligence_subset_left (a b : Intelligence) (k : Fin 6) :
    (a.get k).toFinset ⊆ ((merge_intelligence a b).get k).toFinset := by
  rw [merge_intelligence_get, mergeVals_toFinset]
  exact Finset.subset_union_left

/-! ### Transition lemmas for update_session_core -/

theorem update_core_texts (s : Session) (text : String) (h : List Msg)
    (r : String) :
    (update_session_core s text h r).allScammerTexts =
      s.allScammerTexts ++ [text] := by
  simp only [update_session_core]
  repeat' split
  all_goals rfl

theorem update_core_detected (s : Session) (text : String) (h : List Msg)
    (r : String) :
    s.scamDetected ≤ (update_session_core s text h r).scamDetected := by
  simp only [update_session_core]
  repeat' split
  all_goals first
    | exact Bool.le_true _
    | exact le_refl _

theorem update_core_conf (s : Session) (text : String) (h : List Msg)
    (r : String) :
    (update_session_core s text h r).confidenceLevel =
      confFormula (s.allScammerTexts ++ [text]) := by
  simp only [update_session_core, confFormula]
  repeat' split
  all_goals
    simp only [List.map_append, List.sum_append, List.map_cons, List.map_nil,
      List.sum_cons, List.sum_nil, ← List.concat_eq_append, List.dropLast_concat,
      List.concat_eq_append]
  all_goals
    congr 2
    push_cast
    ring

set_option maxHeartbeats 1000000 in
theorem update_core_intel_subset (s : Session) (text : String) (h : List Msg)
    (r : String) (k : Fin 6) :
    (s.intelligence.get k).toFinset ⊆
      ((update_session_core s text h r).intelligence.get k).toFinset := by
  simp only [update_session_core]
  repeat' split
  all_goals refine subset_trans ?_ (merge_intelligence_subset_left _ _ k)
  all_goals first
    | exact merge_intelligence_subset_left _ _ k
    | exact subset_refl _

/-! ### Store-level step lemmas -/

theorem applyCall_other {store : Store} {c : UpdateCall} {id : String}
    (h : id ≠ c.id) : applyCall store c id = store id := by
  simp only [applyCall, update_session]
  cases hst : store c.id with
  | some s => simp [get_or_create_session, hst, h]
  | none => simp [get_or_create_session, hst, h]

theorem applyCall_self (store : Store) (c : UpdateCall) :
    applyCall store c c.id =
      some
        (update_session_core (get_or_create_session store c.id c.now).1 c.text
          c.history c.reply) := by
  simp [applyCall, update_session]

theorem sessionCat_step (store : Store) (c : UpdateCall) (id : String)
    (k : Fin 6) :
    (sessionCat store id k).toFinset ⊆
      (sessionCat (applyCall store c) id k).toFinset := by
  by_cases h : id = c.id
  · rw [sessionCat, sessionCat, h, applyCall_self]
    cases hst : store c.id with
    | none => simp [hst]
    | some s =>
      simp only [hst, get_or_create_session, Option.map_some', Option.getD_some]
      exact update_core_intel_subset s c.text c.history c.reply k
  · rw [sessionCat, sessionCat, applyCall_other h]

theorem sessionDetected_step (store : Store) (c : UpdateCall) (id : String) :
    sessionDetected store id ≤ sessionDetected (applyCall store c) id := by
  by_cases h : id = c.id
  · rw [sessionDetected, sessionDetected, h, applyCall_self]
    cases hst : store c.id with
    | none => simp [hst]
    | some s =>
      simp only [hst, get_or_create_session, Option.map_some', Option.getD_some]
      exact update_core_detected s c.text c.history c.reply
  · rw [sessionDetected, sessionDetected, applyCall_other h]

/-! ### Confidence formula lemmas -/

theorem confFormula_nonneg (l : List String) : 0 ≤ confFormula l := by
  unfold confFormula
  positivity

theorem confFormula_le_one (l : List String) : confFormula l ≤ 1 :=
  min_le_left _ _

theorem confFormula_mono_append (l : List String) (t : String) :
    confFormula l ≤ confFormula (l ++ [t]) := by
  have hsum : ((l.map sigCount).sum : ℚ) ≤ (((l ++ [t]).map sigCount).sum : ℚ) := by
    rw [Nat.cast_le, List.map_append, List.sum_append]
    exact Nat.le_add_right _ _
  unfold confFormula
  exact min_le_min (le_refl 1) (by gcongr)

/-- Every session ever placed in the store has the confidence that the
    cumulative formula assigns to its accumulated scammer texts. -/
def StoreConfInv (store : Store) : Prop :=
  ∀ id s, store id = some s → s.confidenceLevel = confFormula s.allScammerTexts

theorem storeConfInv_empty : StoreConfInv emptyStore := fun _ _ h =>
  Option.noConfusion h

theorem storeConfInv_step {store : Store} (inv : StoreConfInv store)
    (c : UpdateCall) : StoreConfInv (applyCall store c) := by
  intro id s h
  by_cases hid : id = c.id
  · rw [hid, applyCall_self] at h
    obtain rfl := (Option.some.inj h).symm
    rw [update_core_conf, update_core_texts]
  · rw [applyCall_other hid] at h
    exact inv id s h

theorem storeConfInv_applyCalls (calls : List UpdateCall) {store : Store}
    (inv : StoreConfInv store) : StoreConfInv (applyCalls store calls) := by
  induction calls generalizing store with
  | nil => exact inv
  | cons c cs ih =>
    simp only [applyCalls, List.foldl_cons]
    exact ih (storeConfInv_step inv c)

theorem sessionConf_bounds {store : Store} (inv : StoreConfInv store)
    (id : String) : 0 ≤ sessionConf store id ∧ sessionConf store id ≤ 1 := by
  rw [sessionConf]
  cases hst : store id with
  | none => norm_num
  | some s =>
    simp only [Option.map_some', Option.getD_some]
    rw [inv id s hst]
    exact ⟨confFormula_nonneg _, confFormula_le_one _⟩

theorem sessionConf_step {store : Store} (inv : StoreConfInv store)
    (c : UpdateCall) (id : String) :
    sessionConf store id ≤ sessionConf (applyCall store c) id := by
  by_cases h : id = c.id
  · rw [sessionConf, sessionConf, h, applyCall_self]
    cases hst : store c.id with
    | none =>
      simp only [hst, Option.map_none', Option.getD_none, Option.map_some',
        Option.getD_some]
      rw [update_core_conf]
      exact confFormula_nonneg _
    | some s =>
      simp only [hst, get_or_create_session, Option.map_some', Option.getD_some]
      rw [update_core_conf, inv c.id s hst]
      exact confFormula_mono_append _ _
  · rw [sessionConf, sessionConf, applyCall_other h]

/-! ### History-fold congruence lemmas -/

theorem IntelEq.refl (a : Intelligence) : IntelEq a a := fun _ => rfl

theorem merge_congr_left {a a' : Intelligence} (x : Intelligence)
    (h : IntelEq a a') :
    IntelEq (merge_intelligence a x) (merge_intelligence a' x) := by
  intro k
  rw [merge_intelligence_get, merge_intelligence_get, mergeVals_toFinset,
    mergeVals_toFinset, h k]

theorem merge_empty_right (a : Intelligence) :
    IntelEq (merge_intelligence a emptyIntelligence) a := by
  intro k
  rw [merge_intelligence_get, mergeVals_toFinset, emptyIntelligence_get]
  simp

theorem hist_foldl_congr {a a' : Intelligence} (l : List Msg)
    (h : IntelEq a a') :
    IntelEq
      (l.foldl
        (fun combined msg =>
          if msg.getSender = "scammer" then
            merge_intelligence combined (extract_all_intelligence msg.getText)
          else combined)
        a)
      (l.foldl
        (fun combined msg =>
          if msg.getSender = "scammer" then
            merge_intelligence combined (extract_all_intelligence msg.getText)
          else combined)
        a') := by
  induction l generalizing a a' with
  | nil => exact h
  | cons m l ih =>
    simp only [List.foldl_cons]
    by_cases hm : m.getSender = "scammer"
    · simp only [if_pos hm]
      exact ih (merge_congr_left _ h)
    · simp only [if_neg hm]
      exact ih h

/-! ### Claim theorems -/

/-- C4 counterexample: the claim bounds the digit-only form of every
    extracted phone number by 13, but on the input +12345678901234 the
    international-format pattern matches the whole token, whose digit-only
    form has 14 digits, and the cleaning step keeps it. -/
theorem c4_phone_digits_counterexample :
    "+12345678901234" ∈ extract_phone_numbers "+12345678901234" ∧
      (digitsOfL ("+12345678901234" : String).data).length = 14 := by
  constructor <;> decide

/-- C4 (amended): every string returned by extract_phone_numbers has a
    digit-only form whose length is between 10 and 14 digits inclusive
    (the international pattern allows 3 + 5 + 6 digits, and the cleaning
    step enforces the lower bound of 10). -/
theorem c4_phone_digit_bounds (text : String) (p : String)
    (hp : p ∈ extract_phone_numbers text) :
    10 ≤ (digitsOfL p.data).length ∧ (digitsOfL p.data).length ≤ 14 := by
  simp only [extract_phone_numbers] at hp
  split at hp
  · simp at hp
  · rw [List.mem_dedup, List.mem_filterMap] at hp
    obtain ⟨num, hnum, hf⟩ := hp
    split at hf
    next hge =>
      obtain rfl : String.mk (stripC num) = p := Option.some.inj hf
      refine ⟨hge, ?_⟩
      have hnum14 : (digitsOfL num).length ≤ 14 := by
        rcases List.mem_append.mp hnum with h | h
        · rcases List.mem_append.mp h with h | h
          · rcases List.mem_append.mp h with h | h
            · obtain ⟨p', s', hm⟩ := findAll_mem h
              exact matchPhonePat1_digits hm
            · obtain ⟨p', s', hm⟩ := findAll_mem h
              exact matchPhonePat2_digits hm
          · obtain ⟨p', s', hm⟩ := findAll_mem h
            exact matchPhonePat3_digits hm
        · obtain ⟨p', s', hm⟩ := findAll_mem h
          exact matchPhonePat4_digits hm
      have hstrip : (digitsOfL (stripC num)).length ≤ (digitsOfL num).length :=
        ((stripC_sublist num).filter Char.isDigit).length_le
      exact le_trans hstrip hnum14
    next => exact Option.noConfusion hf

/-- C4 witness: the amended bounds hold at a concrete extracted number. -/
theorem c4_phone_digit_bounds_witness :
    "9876543210" ∈ extract_phone_numbers "Call me at 9876543210" ∧
      (10 ≤ (digitsOfL ("9876543210" : String).data).length ∧
        (digitsOfL ("9876543210" : String).data).length ≤ 14) :=
  ⟨by decide, c4_phone_digit_bounds "Call me at 9876543210" "9876543210" (by decide)⟩

/-- C3: for every text the email and UPI results are disjoint (the email
    extractor removes every token classified as UPI for the same text),
    and on "send to merchant@paytm" the UPI result is exactly
    merchant@paytm while the email result is empty. -/
theorem c3_upi_email_disjoint :
    (∀ text : String,
        Disjoint (extract_email_addresses text).toFinset
          (extract_upi_ids text).toFinset) ∧
      extract_upi_ids "send to merchant@paytm" = ["merchant@paytm"] ∧
      extract_email_addresses "send to merchant@paytm" = [] := by
  refine ⟨?_, by decide, by decide⟩
  intro text
  rw [Finset.disjoint_left]
  intro x hx hx2
  rw [List.mem_toFinset] at hx hx2
  simp only [extract_email_addresses] at hx
  split at hx
  · simp at hx
  · rw [List.mem_dedup, List.mem_filter] at hx
    have h2 := hx.2
    simp only [decide_eq_true_eq] at h2
    exact h2 hx2

/-- C6: merge_intelligence, compared key by key as sets, has the empty
    record as identity, is idempotent, and is commutative. -/
theorem c6_merge_algebra :
    (∀ X : Intelligence, IntelEq (merge_intelligence X emptyIntelligence) X) ∧
      (∀ X : Intelligence, IntelEq (merge_intelligence X X) X) ∧
      ∀ a b : Intelligence,
        IntelEq (merge_intelligence a b) (merge_intelligence b a) := by
  refine ⟨?_, ?_, ?_⟩
  · intro X k
    rw [merge_intelligence_get, mergeVals_toFinset, emptyIntelligence_get]
    simp
  · intro X k
    rw [merge_intelligence_get, mergeVals_toFinset]
    simp
  · intro a b k
    rw [merge_intelligence_get, merge_intelligence_get, mergeVals_toFinset,
      mergeVals_toFinset]
    exact Finset.union_comm _ _

/-- C7: the report projects confidence as max(actual, 0.75) when a scam
    was detected and 0 otherwise, projects scamType as the actual type
    when detected and the literal none otherwise, and always reports an
    engagement duration of at least one second. -/
theorem c7_report_projection (store : Store) (id : String) (now : Nat) :
    ((build_final_output store id now).1.confidenceLevel =
        if (get_or_create_session store id now).1.scamDetected then
          max (get_or_create_session store id now).1.confidenceLevel (75 / 100)
        else 0) ∧
      ((build_final_output store id now).1.scamType =
          if (get_or_create_session store id now).1.scamDetected then
            (get_or_create_session store id now).1.scamType
          else "none") ∧
      1 ≤ (build_final_output store id now).1.engagementDurationSeconds :=
  ⟨rfl, rfl, Nat.le_max_right _ _⟩

/-- C9: building the final output for an unknown session id does not
    report a not-found condition; it creates a fresh session in the store
    and reports no scam, type none, confidence 0, zero messages and empty
    intelligence, while get_session on the same id returns none. -/
theorem c9_report_unknown_session (store : Store) (id : String) (now : Nat)
    (h : store id = none) :
    (build_final_output store id now).1.scamDetected = false ∧
      (build_final_output store id now).1.scamType = "none" ∧
      (build_final_output store id now).1.confidenceLevel = 0 ∧
      (build_final_output store id now).1.totalMessagesExchanged = 0 ∧
      (build_final_output store id now).1.extractedIntelligence =
        emptyIntelligence ∧
      (build_final_output store id now).2 id = some (initialSession now) ∧
      get_session store id = none := by
  have hs :
      get_or_create_session store id now =
        (initialSession now,
          fun x => if x = id then some (initialSession now) else store x) := by
    unfold get_or_create_session
    rw [h]
  refine ⟨?_, ?_, ?_, ?_, ?_, ?_, h⟩ <;>
    simp [build_final_output, hs, initialSession, emptyIntelligence]

/-- C9 witness: instantiated on the empty store. -/
theorem c9_report_unknown_session_witness :
    (build_final_output emptyStore "s1" 5).1.scamDetected = false ∧
      (build_final_output emptyStore "s1" 5).1.scamType = "none" ∧
      (build_final_output emptyStore "s1" 5).1.confidenceLevel = 0 ∧
      (build_final_output emptyStore "s1" 5).1.totalMessagesExchanged = 0 ∧
      (build_final_output emptyStore "s1" 5).1.extractedIntelligence =
        emptyIntelligence ∧
      (build_final_output emptyStore "s1" 5).2 "s1" =
        some (initialSession 5) ∧
      get_session emptyStore "s1" = none :=
  c9_report_unknown_session emptyStore "s1" 5 rfl

set_option maxHeartbeats 4000000 in
/-- C10: the scam latch and confidence come from the signal keyword list
    while the type comes from the pattern table, so they can diverge: a
    first update whose text only contains delivery-table words leaves
    scamDetected false and confidence 0 while setting a concrete type. -/
theorem c10_type_without_detection :
    (update_session emptyStore "s1" 0 "your package with courier" [] "ok").1.scamDetected
        = false ∧
      (update_session emptyStore "s1" 0 "your package with courier" [] "ok").1.confidenceLevel
        = 0 ∧
      (update_session emptyStore "s1" 0 "your package with courier" [] "ok").1.scamType
        = "delivery_fraud" ∧
      (update_session emptyStore "s1" 0 "your package with courier" [] "ok").1.scamType
        ≠ "unknown" := by
  refine ⟨by decide, ?_, by decide, by decide⟩
  have he :
      (update_session emptyStore "s1" 0 "your package with courier" [] "ok").1 =
        update_session_core (initialSession 0) "your package with courier" [] "ok" := by
    simp only [update_session, get_or_create_session, emptyStore]
  rw [he, update_core_conf]
  have h0 : sigCount "your package with courier" = 0 := by decide
  simp [confFormula, h0, initialSession]

/-- C1: across any sequence of update_session calls, every one of the six
    intelligence category sets of every session only grows (as a set and
    in cardinality), and scamDetected never falls back from true to
    false. -/
theorem c1_monotonic_growth (store : Store) (calls : List UpdateCall)
    (id : String) (k : Fin 6) :
    (sessionCat store id k).toFinset ⊆
        (sessionCat (applyCalls store calls) id k).toFinset ∧
      (sessionCat store id k).toFinset.card ≤
        (sessionCat (applyCalls store calls) id k).toFinset.card ∧
      sessionDetected store id ≤ sessionDetected (applyCalls store calls) id := by
  induction calls generalizing store with
  | nil => exact ⟨subset_refl _, le_refl _, le_refl _⟩
  | cons c cs ih =>
    obtain ⟨ih1, ih2, ih3⟩ := ih (applyCall store c)
    have h1 := sessionCat_step store c id k
    have h3 := sessionDetected_step store c id
    simp only [applyCalls, List.foldl_cons] at *
    exact ⟨subset_trans h1 ih1, le_trans (Finset.card_le_card h1) ih2,
      le_trans h3 ih3⟩

/-- C2: starting from the program's empty session store, every session's
    confidenceLevel always lies in the interval from 0 to 1 and one more
    update_session call never decreases it (it is recomputed by the
    cumulative formula over the growing scammer-text log). -/
theorem c2_confidence_monotone (calls : List UpdateCall) (c : UpdateCall)
    (id : String) :
    0 ≤ sessionConf (applyCalls emptyStore calls) id ∧
      sessionConf (applyCalls emptyStore calls) id ≤ 1 ∧
      sessionConf (applyCalls emptyStore calls) id ≤
        sessionConf (applyCalls emptyStore (calls ++ [c])) id := by
  have inv : StoreConfInv (applyCalls emptyStore calls) :=
    storeConfInv_applyCalls calls storeConfInv_empty
  obtain ⟨h0, h1⟩ := sessionConf_bounds inv id
  refine ⟨h0, h1, ?_⟩
  have happ :
      applyCalls emptyStore (calls ++ [c]) =
        applyCall (applyCalls emptyStore calls) c := by
    simp [applyCalls, List.foldl_append]
  rw [happ]
  exact sessionConf_step inv c id

/-- C5: every string returned by extract_bank_accounts is a pure digit
    run of length 9 to 18, differs from and is not contained in the
    digit-only form of any phone number extracted from the same text, and
    a returned 10-digit run never starts with 6, 7, 8 or 9; moreover on
    "Call me at 9876543210" the phone result is that single number and
    the bank-account result is empty. -/
theorem c5_bank_account_exclusions :
    (∀ (text a : String), a ∈ extract_bank_accounts text →
        (∀ c ∈ a.data, c.isDigit = true) ∧
          (9 ≤ a.data.length ∧ a.data.length ≤ 18) ∧
          (∀ p ∈ extract_phone_numbers text,
              a.data ≠ digitsOfL p.data ∧
                containsSub (digitsOfL p.data) a.data = false) ∧
          (a.data.length = 10 → mobileStart a.data = false)) ∧
      (extract_phone_numbers "Call me at 9876543210").toFinset =
        {"9876543210"} ∧
      extract_bank_accounts "Call me at 9876543210" = [] := by
  refine ⟨?_, by decide, by decide⟩
  intro text a ha
  simp only [extract_bank_accounts] at ha
  split at ha
  · simp at ha
  · rw [List.mem_dedup, List.mem_map] at ha
    obtain ⟨mt, hmt, rfl⟩ := ha
    rw [List.mem_filter] at hmt
    obtain ⟨hmem, hcond⟩ := hmt
    obtain ⟨p', s', hm⟩ := findAll_mem hmem
    obtain ⟨hlo, hhi, hdig⟩ := matchBank_spec hm
    rw [Bool.and_eq_true, Bool.not_eq_true', Bool.not_eq_true',
      Bool.or_eq_false_iff] at hcond
    obtain ⟨⟨hnotmem, hnotsub⟩, h10⟩ := hcond
    refine ⟨hdig, ⟨hlo, hhi⟩, ?_, ?_⟩
    · intro p hp
      constructor
      · intro heq
        rw [decide_eq_false_iff_not] at hnotmem
        exact hnotmem (List.mem_map.mpr ⟨p, hp, heq.symm⟩)
      · rw [List.any_eq_false] at hnotsub
        simpa using hnotsub (digitsOfL p.data) (List.mem_map.mpr ⟨p, hp, rfl⟩)
    · intro hlen
      rw [Bool.and_eq_false_iff] at h10
      rcases h10 with h10 | h10
      · rw [decide_eq_false_iff_not] at h10
        exact absurd hlen h10
      · exact h10

/-- C5 witness: instantiated on a concrete extracted bank account. -/
theorem c5_bank_account_exclusions_witness :
    "123456789" ∈ extract_bank_accounts "account 123456789" ∧
      ((∀ c ∈ ("123456789" : String).data, c.isDigit = true) ∧
        (9 ≤ ("123456789" : String).data.length ∧
          ("123456789" : String).data.length ≤ 18) ∧
        (∀ p ∈ extract_phone_numbers "account 123456789",
            ("123456789" : String).data ≠ digitsOfL p.data ∧
              containsSub (digitsOfL p.data) ("123456789" : String).data =
                false) ∧
        (("123456789" : String).data.length = 10 →
          mobileStart ("123456789" : String).data = false)) :=
  ⟨by decide,
    c5_bank_account_exclusions.1 "account 123456789" "123456789" (by decide)⟩

/-- C8: a history entry whose sender is absent or not the scammer
    contributes nothing at all; an entry with absent text contributes
    nothing to the intelligence sets; and every extractor returns the
    empty result on empty text instead of failing. -/
theorem c8_malformed_history_robustness :
    (∀ (pre post : List Msg) (m : Msg), m.getSender ≠ "scammer" →
        extract_from_conversation_history (pre ++ m :: post) =
          extract_from_conversation_history (pre ++ post)) ∧
      (∀ (pre post : List Msg) (m : Msg), m.getText = "" →
          IntelEq (extract_from_conversation_history (pre ++ m :: post))
            (extract_from_conversation_history (pre ++ post))) ∧
      extract_phone_numbers "" = [] ∧ extract_upi_ids "" = [] ∧
        extract_email_addresses "" = [] ∧ extract_bank_accounts "" = [] ∧
        extract_phishing_links "" = [] ∧ extract_case_ids "" = [] := by
  refine ⟨?_, ?_, rfl, rfl, rfl, rfl, rfl, rfl⟩
  · intro pre post m hm
    unfold extract_from_conversation_history
    rw [List.foldl_append, List.foldl_append, List.foldl_cons]
    simp only [if_neg hm]
  · intro pre post m hm
    unfold extract_from_conversation_history
    rw [List.foldl_append, List.foldl_append, List.foldl_cons]
    by_cases hs : m.getSender = "scammer"
    · simp only [if_pos hs, hm]
      exact hist_foldl_congr post (merge_empty_right _)
    · simp only [if_neg hs]
      exact IntelEq.refl _

/-- C8 witness: a sender-less entry contributes nothing, a text-less
    scammer entry contributes no intelligence, and the phone extractor
    returns the empty result on empty text. -/
theorem c8_malformed_history_robustness_witness :
    (extract_from_conversation_history
          ([] ++ ⟨none, some "urgent otp 9876543210"⟩ :: []) =
        extract_from_conversation_history ([] ++ [])) ∧
      IntelEq
        (extract_from_conversation_history ([] ++ ⟨some "scammer", none⟩ :: []))
        (extract_from_conversation_history ([] ++ [])) ∧
      extract_phone_numbers "" = [] :=
  ⟨c8_malformed_history_robustness.1 [] [] ⟨none, some "urgent otp 9876543210"⟩
      (by decide),
    c8_malformed_history_robustness.2.1 [] [] ⟨some "scammer", none⟩ rfl,
    c8_malformed_history_robustness.2.2.1⟩

end Honeypot
